import Mathlib

/-!
Verification of the CosilicoAI/cosilico-atlas normalization pipeline against
its specification.  The definitions below are a shallow embedding of the
Python sources:

* `src/arch/fetchers/legislation_uk.py` — the `UKLegislationFetcher` class
  (URL construction, cache paths, cache-or-fetch logic, the per-act section
  enumeration loop, and the request rate limiter);
* `src/arch/sources/registry.py` — jurisdiction registry lookup, source
  registration and adapter selection;
* the IRS drop-listing parser exercised by `tests/test_irs_bulk_fetcher.py`
  (its implementation module is not part of the sources given, so it is
  modelled from the specification and the tests, as marked below).

Machine integers do not occur; Python `int` fields (years, counts, HTTP
status codes) are modelled as `Nat`.  Python strings are Lean `String`s;
where character-level reasoning is needed (path splitting, filename
patterns) we work on `String.data : List Char`.  Effectful code is modelled
by explicit state passing: the filesystem cache is an association list and
the network is an oracle function, with a log of issued request URLs so
that properties such as "never retried" are expressible.
-/

/-- Decimal rendering of a natural number, little helper with explicit fuel
so that it is structurally recursive and kernel-reducible.  `natStrAux fuel n`
returns the digits of `n` (most significant first) provided `n ≤ fuel`. -/
def natStrAux : Nat → Nat → List Char
  | 0, _ => []
  | fuel + 1, n =>
    if n = 0 then []
    else natStrAux fuel (n / 10) ++ [Nat.digitChar (n % 10)]

/-- Decimal rendering of a natural number, the embedding of Python `str(n)`
for non-negative `n` (e.g. `natStr 2003 = ['2','0','0','3']`). -/
def natStr (n : Nat) : List Char :=
  if n = 0 then ['0'] else natStrAux (n + 1) n

/-- Split a character list on `'/'`, the embedding of how `pathlib` breaks a
string argument of `Path.__truediv__` into path components.  Splitting
`"a/b"` yields `["a", "b"]`; empty segments (from `"a//b"`) are kept here and
dropped in `pathSegs` below, matching `pathlib`'s collapsing of spurious
slashes. -/
def splitSlash : List Char → List (List Char)
  | [] => [[]]
  | c :: rest =>
    match splitSlash rest with
    | [] => [[c]]
    | p :: ps => if c = '/' then [] :: p :: ps else (c :: p) :: ps

/-- A path segment is well formed when it contains no separator, is nonempty
and is not the single dot that `pathlib` collapses away. -/
def goodSeg (l : List Char) : Prop := '/' ∉ l ∧ l ≠ [] ∧ l ≠ ['.']

instance (l : List Char) : Decidable (goodSeg l) :=
  inferInstanceAs (Decidable (_ ∧ _ ∧ _))

/-- Path components contributed by one string argument of a `pathlib` join:
split on `'/'`, with empty segments and single dots collapsed (pathlib
normalizes both).  Segments are treated as relative; an absolute argument
(leading `'/'`), which would make `pathlib` discard the base directory, is
outside the range of the properties proved here. -/
def pathSegs (l : List Char) : List (List Char) :=
  (splitSlash l).filter (fun p => !(p == [] || p == ['.']))

/-- UK legislation citation.  Modelled from the spec: `arch.models_uk` is not
under the given sources; the field set follows the spec's Citation data model
and the attribute accesses in `legislation_uk.py` (`citation.type`,
`citation.year`, `citation.number`, `citation.section`).  `number` and
`section` are strings ("citations are not always numeric"), `year` is a
non-negative integer. -/
structure UKCitation where
  type : String
  year : Nat
  number : String
  «section» : Option String
deriving DecidableEq

/-- UK section.  Modelled from the spec: `arch.parsers.clml` is not under the
given sources and none of the claims settled here depend on the parsed
structure, so a section is represented by the raw payload it was parsed
from. -/
structure UKSection where
  raw : String
deriving DecidableEq

/-- Embedding of `parse_section` (see `UKSection`): the claims settled here
only need that the same payload parses to the same section. -/
def parse_section (xml : String) : UKSection := ⟨xml⟩

/-- UK act metadata.  Modelled from the spec's Act data model; only the
fields consumed by `fetch_act_sections` are kept (`section_count` is the
optional bound for enumeration fetches). -/
structure UKAct where
  title : String
  section_count : Option Nat
deriving DecidableEq

/-- Embedding of `UKLegislationFetcher.build_url` (legislation_uk.py lines
59-75).  The `version` argument defaults to the empty string exactly as in
the source; every call site relevant to the claims uses the default. -/
def build_url (base_url : String) (citation : UKCitation) (version : String := "") : String :=
  let url := base_url ++ "/" ++ citation.type ++ "/" ++ String.mk (natStr citation.year)
      ++ "/" ++ citation.number
  let url := match citation.«section» with
    | some s => url ++ "/section/" ++ s
    | none => url
  let url := if version = "" then url else url ++ "/" ++ version
  url ++ "/data.xml"

/-- The final cache path component chosen on lines 138-140 of
legislation_uk.py: `f"section-{citation.section}.xml"` when the citation
has a section and `"act.xml"` otherwise. -/
def lastSeg : Option String → List Char
  | some s => "section-".data ++ s.data ++ ".xml".data
  | none => "act.xml".data

/-- Embedding of `UKLegislationFetcher._cache_path` (legislation_uk.py lines
135-140) as the list of path components below `data_dir` (the `data_dir`
prefix is fixed per fetcher instance, so it is dropped):
`data_dir / type / str(year) / str(number)` then `lastSeg`.  `pathSegs`
reflects how `pathlib` decomposes each string argument into components. -/
def cache_path_parts (citation : UKCitation) : List (List Char) :=
  pathSegs citation.type.data ++ pathSegs (natStr citation.year)
    ++ pathSegs citation.number.data
    ++ pathSegs (lastSeg citation.«section»)

/-- Result of one HTTP request, as seen through `httpx` in `_fetch_xml`:
a 2xx response with a body, a non-2xx status (`response.raise_for_status()`
raises `httpx.HTTPStatusError` carrying the status code), or a transport
failure (timeout / connection error, not an `HTTPStatusError`). -/
inductive FetchOutcome where
  | ok (body : String)
  | status (code : Nat)
  | transport
deriving DecidableEq

/-- Error raised out of `_fetch_xml`: `httpx.HTTPStatusError` with its
status code, or a transport-level `httpx.HTTPError`. -/
inductive FetchErr where
  | statusErr (code : Nat)
  | transportErr
deriving DecidableEq

/-- Mutable context of a `UKLegislationFetcher`: the on-disk cache keyed by
cache path (an association list, newest entry first, standing for the files
under `data_dir`) and the ordered log of request URLs actually sent over
the network.  The log is not a field of the Python object; it records the
calls to `client.get` so that "no network fetch" and "never retried" are
expressible. -/
structure FetchState where
  cache : List (List (List Char) × String)
  log : List String
deriving DecidableEq

/-- Cache file lookup: `cache_path.exists()` plus `cache_path.read_text()`. -/
def cacheLookup : List (List (List Char) × String) → List (List Char) → Option String
  | [], _ => none
  | (k, v) :: rest, k' => if k' = k then some v else cacheLookup rest k'

/-- Cache file write: `cache_path.write_text(xml_str)` (silent overwrite,
last write wins: the newest entry shadows older ones for `cacheLookup`). -/
def cacheInsert (cache : List (List (List Char) × String)) (k : List (List Char))
    (v : String) : List (List (List Char) × String) :=
  (k, v) :: cache

/-- An oracle for the network: given the index of the request (how many
requests were issued before it) and the URL, the outcome of that request.
The index argument lets a scripted oracle answer differently on repeated
requests to the same URL, which is what makes retry behaviour observable. -/
def NetOracle := Nat → String → FetchOutcome

/-- Embedding of `UKLegislationFetcher._fetch_xml` (legislation_uk.py lines
111-133): issue the request (recorded in the log) and either return the
body or fail with the error `raise_for_status` / the transport layer
raises.  The `await self._rate_limit()` call on line 123 only spaces
requests in time and does not alter the request, cache or result; it is
modelled separately by `rate_limit` below. -/
def fetch_xml (net : NetOracle) (st : FetchState) (url : String) :
    FetchState × Except FetchErr String :=
  let resp := net st.log.length url
  let st' : FetchState := { st with log := st.log ++ [url] }
  match resp with
  | .ok body => (st', .ok body)
  | .status code => (st', .error (.statusErr code))
  | .transport => (st', .error .transportErr)

/-- Embedding of `UKLegislationFetcher.fetch_section` (legislation_uk.py
lines 142-172): on a cache hit (and `force=False`) parse the cached payload
with no network access; otherwise fetch, optionally write the cache, and
parse the fetched payload.  Errors from `_fetch_xml` propagate. -/
def fetch_section (net : NetOracle) (base_url : String) (st : FetchState)
    (citation : UKCitation) (cacheFlag : Bool := true) (force : Bool := false) :
    FetchState × Except FetchErr UKSection :=
  let path := cache_path_parts citation
  match (if force then none else cacheLookup st.cache path) with
  | some xml => (st, .ok (parse_section xml))
  | none =>
    match fetch_xml net st (build_url base_url citation) with
    | (st', .ok xml) =>
      ((if cacheFlag then { st' with cache := cacheInsert st'.cache path xml } else st'),
        .ok (parse_section xml))
    | (st', .error e) => (st', .error e)

/-- Embedding of `UKLegislationFetcher.fetch_act_metadata` (legislation_uk.py
lines 174-202); structurally identical to `fetch_section` but parses act
metadata.  The parser argument stands for `parse_act_metadata`
(`arch.parsers.clml` is not under the given sources), kept abstract and
supplied by each theorem. -/
def fetch_act_metadata (net : NetOracle) (meta : String → UKAct) (base_url : String)
    (st : FetchState) (citation : UKCitation) (cacheFlag : Bool := true)
    (force : Bool := false) : FetchState × Except FetchErr UKAct :=
  let path := cache_path_parts citation
  match (if force then none else cacheLookup st.cache path) with
  | some xml => (st, .ok (meta xml))
  | none =>
    match fetch_xml net st (build_url base_url citation) with
    | (st', .ok xml) =>
      ((if cacheFlag then { st' with cache := cacheInsert st'.cache path xml } else st'),
        .ok (meta xml))
    | (st', .error e) => (st', .error e)

/-- Embedding of lines 220-223 of `fetch_act_sections`:
`section_count = act.section_count or 1000` (Python `or` also replaces an
explicit `0`) and `if max_sections: section_count = min(section_count,
max_sections)` (Python truthiness: `max_sections=0` leaves the count
unchanged). -/
def effective_count (sc : Option Nat) (ms : Option Nat) : Nat :=
  let c := match sc with
    | none => 1000
    | some k => if k = 0 then 1000 else k
  match ms with
  | none => c
  | some m => if m = 0 then c else min c m

/-- The candidate section numbers enumerated by `fetch_act_sections`:
`range(1, section_count + 1)` (legislation_uk.py line 227). -/
def candidate_sections (sc : Option Nat) (ms : Option Nat) : List Nat :=
  List.range' 1 (effective_count sc ms)

/-- The per-section citation built on lines 229-234: same type, year and
number as the act's citation, with `section=str(i)`. -/
def section_citation (citation : UKCitation) (i : Nat) : UKCitation :=
  { type := citation.type, year := citation.year, number := citation.number,
    «section» := some (String.mk (natStr i)) }

/-- Embedding of the fetch loop of `fetch_act_sections` (legislation_uk.py
lines 226-243): for each candidate number in order, fetch the section with
the default `cache=True, force=False`; an `httpx.HTTPStatusError` with
status 404 skips that section and continues; any other error re-raises,
ending the loop. -/
def fetch_sections_loop (net : NetOracle) (base_url : String) (st : FetchState)
    (citation : UKCitation) : List Nat → FetchState × Except FetchErr (List UKSection)
  | [] => (st, .ok [])
  | i :: rest =>
    match fetch_section net base_url st (section_citation citation i) true false with
    | (st', .ok s) =>
      match fetch_sections_loop net base_url st' citation rest with
      | (st'', .ok l) => (st'', .ok (s :: l))
      | (st'', .error e) => (st'', .error e)
    | (st', .error e) =>
      if e = .statusErr 404 then fetch_sections_loop net base_url st' citation rest
      else (st', .error e)

/-- Embedding of `UKLegislationFetcher.fetch_act_sections` (legislation_uk.py
lines 204-243): fetch the act metadata (defaults `cache=True, force=False`),
derive the candidate range, then run the loop. -/
def fetch_act_sections (net : NetOracle) (meta : String → UKAct) (base_url : String)
    (st : FetchState) (citation : UKCitation) (max_sections : Option Nat := none) :
    FetchState × Except FetchErr (List UKSection) :=
  match fetch_act_metadata net meta base_url st citation true false with
  | (st', .ok act) =>
    fetch_sections_loop net base_url st' citation
      (candidate_sections act.section_count max_sections)
  | (st', .error e) => (st', .error e)

/-- Modelled from the spec: "`DISCOVER`: resolve target citations to process
— full enumeration (1..section_count) when the source cannot list contents";
"a 404/'not found' response transitions the individual citation to a
terminal `SKIPPED` state (not `FAILED`) — the pipeline continues with the
rest"; sections are kept in ascending section-number order.  Given a
per-URL response function, the sections the spec expects: the candidate
numbers in ascending order, each fetched, 404s skipped. -/
def spec_enumerated_sections (f : String → FetchOutcome) (base_url : String)
    (citation : UKCitation) (idxs : List Nat) : List UKSection :=
  idxs.filterMap (fun i =>
    match f (build_url base_url (section_citation citation i)) with
    | .ok body => some (parse_section body)
    | _ => none)

/-- A response that the enumeration loop handles per-citation: a success or
a 404 (anything else aborts the loop). -/
def isOkOr404 : FetchOutcome → Bool
  | .ok _ => true
  | .status code => code == 404
  | .transport => false

/-- Clock state of the rate limiter: `now` is the current wall-clock time
(`time.time()`) and `last` is `self._last_request_time`.  Time is modelled
as a rational number of seconds; in this discrete-event embedding time
advances only inside `asyncio.sleep` and, between fetches, by the
caller-chosen gaps fed to `request_times`. -/
structure RateState where
  now : ℚ
  last : ℚ
deriving DecidableEq

/-- The amount `_rate_limit` sleeps (legislation_uk.py lines 102-108):
`rate_limit_delay - elapsed` when `elapsed < rate_limit_delay`, nothing
otherwise. -/
def rate_limit_sleep (delay : ℚ) (s : RateState) : ℚ :=
  if s.now - s.last < delay then delay - (s.now - s.last) else 0

/-- Embedding of `UKLegislationFetcher._rate_limit` (legislation_uk.py lines
102-109): sleep as needed, then record the post-sleep time as
`_last_request_time`; the request is issued immediately afterwards at
`now`. -/
def rate_limit (delay : ℚ) (s : RateState) : RateState :=
  let t := s.now + rate_limit_sleep delay s
  { now := t, last := t }

/-- The sequence of request issue times over a run of `_fetch_xml` calls:
`gaps` lists, for each call, how much wall-clock time passed since the
previous call returned (arbitrary, non-negative); each call runs
`_rate_limit` and then issues its request at the resulting `now`. -/
def request_times (delay : ℚ) : RateState → List ℚ → List ℚ
  | _, [] => []
  | s, g :: gs =>
    let s' := rate_limit delay { s with now := s.now + g }
    s'.now :: request_times delay s' gs

/-- Per-jurisdiction source configuration.  Modelled from the spec's
`SourceConfig` data model; the field set is exactly the constructor call in
`registry.py` lines 45-61 (`arch.sources.base` is not under the given
sources). -/
structure SourceConfig where
  jurisdiction : String
  name : String
  source_type : String
  base_url : String
  api_key : Option String
  section_url_pattern : Option String
  toc_url_pattern : Option String
  content_selector : Option String
  title_selector : Option String
  history_selector : Option String
  codes : List (String × String)
  priority_codes : List String
  rate_limit : ℚ
  max_retries : Nat
  custom_parser_ref : Option String
deriving DecidableEq

/-- The default `max_retries` applied when a YAML source file omits it
(`registry.py` line 59: `data.get("max_retries", 3)`). -/
def yaml_default_max_retries : Nat := 3

/-- ASCII lower-casing of one character, the embedding of Python
`str.lower()` restricted to ASCII (every jurisdiction code in the
repository is ASCII). -/
def lowerChar (c : Char) : Char :=
  if 'A' ≤ c ∧ c ≤ 'Z' then Char.ofNat (c.toNat + 32) else c

/-- ASCII lower-casing of a string (`jurisdiction.lower()`). -/
def lowerStr (s : String) : String := String.mk (s.data.map lowerChar)

/-- The registry's mutable mapping `_SOURCE_CONFIGS`, passed explicitly:
an association list from jurisdiction key to configuration, newest entry
first (a dict assignment is modelled by prepending, which shadows older
entries for `configsLookup`). -/
def Registry := List (String × SourceConfig)

/-- Dictionary lookup, `configs.get(key)`. -/
def configsLookup : Registry → String → Option SourceConfig
  | [], _ => none
  | (k, v) :: rest, k' => if k' = k then some v else configsLookup rest k'

/-- Embedding of `get_config_for_jurisdiction` (registry.py lines 976-979):
`configs.get(jurisdiction.lower())`. -/
def get_config_for_jurisdiction (st : Registry) (jurisdiction : String) :
    Option SourceConfig :=
  configsLookup st (lowerStr jurisdiction)

/-- Embedding of `register_source` (registry.py lines 1028-1031):
`_SOURCE_CONFIGS[jurisdiction.lower()] = config`. -/
def register_source (st : Registry) (jurisdiction : String) (config : SourceConfig) :
    Registry :=
  (lowerStr jurisdiction, config) :: st

/-- The source-adapter variant chosen by `get_source_for_jurisdiction`,
with the constructor arguments it is built from: `USLMSource(config)`,
`APISource(config)`, `NYLegislationSource(config.api_key)`, or
`HTMLSource(config)`. -/
inductive StatuteSourceChoice where
  | uslm (config : SourceConfig)
  | api (config : SourceConfig)
  | nyLegislation (apiKey : Option String)
  | html (config : SourceConfig)
deriving DecidableEq

/-- Embedding of `get_source_for_jurisdiction` (registry.py lines 982-1011):
look up the configuration, then branch on `source_type` — except that
inside the `"api"` branch the raw `jurisdiction` argument is compared
against the literal `"us-ny"`. -/
def get_source_for_jurisdiction (st : Registry) (jurisdiction : String) :
    Option StatuteSourceChoice :=
  match get_config_for_jurisdiction st jurisdiction with
  | none => none
  | some config =>
    if config.source_type = "uslm" then some (.uslm config)
    else if config.source_type = "api" then
      if jurisdiction = "us-ny" then some (.nyLegislation config.api_key)
      else some (.api config)
    else some (.html config)

/-- IRS guidance document types recognized by the drop-listing parser
(`atlas.models_guidance.GuidanceType`, as used in the tests). -/
inductive GuidanceType where
  | REV_PROC
  | REV_RUL
  | NOTICE
  | ANNOUNCEMENT
deriving DecidableEq

/-- A guidance document recognized in an IRS drop listing
(`atlas.fetchers.irs_bulk.IRSDropDocument`, fields as used in the tests). -/
structure IRSDropDocument where
  doc_type : GuidanceType
  doc_number : String
  year : Nat
  pdf_filename : String
deriving DecidableEq

/-- Does `p` start the list `l`? -/
def startsWithChars : List Char → List Char → Bool
  | [], _ => true
  | _ :: _, [] => false
  | p :: ps, c :: cs => p == c && startsWithChars ps cs

/-- The values of the `href` attributes occurring in an HTML fragment:
every maximal quote-free run following the marker `href="`. -/
def extractHrefs : List Char → List (List Char)
  | [] => []
  | c :: rest =>
    if startsWithChars "href=\"".data (c :: rest) then
      ((c :: rest).drop 6).takeWhile (fun ch => ch ≠ '"') :: extractHrefs rest
    else extractHrefs rest

/-- Decimal digit test for the filename pattern. -/
def isDigitCh (c : Char) : Bool := '0' ≤ c && c ≤ '9'

/-- Numeric value of a list of decimal digit characters (`int(...)`). -/
def digitsVal (l : List Char) : Nat :=
  l.foldl (fun acc c => acc * 10 + (c.toNat - 48)) 0

/-- The guidance type encoded in an IRS drop filename's leading letters:
`rp-` Revenue Procedure, `rr-` Revenue Ruling, `n-` Notice, `a-`
Announcement; anything else (e.g. publications `p1544.pdf`, instructions
`i1040.pdf`) is not guidance. -/
def guidanceKind (l : List Char) : Option (GuidanceType × List Char) :=
  if startsWithChars "rp-".data l then some (.REV_PROC, l.drop 3)
  else if startsWithChars "rr-".data l then some (.REV_RUL, l.drop 3)
  else if startsWithChars "n-".data l then some (.NOTICE, l.drop 2)
  else if startsWithChars "a-".data l then some (.ANNOUNCEMENT, l.drop 2)
  else none

/-- Modelled from the spec: recognize one IRS drop filename of the form
`<kind>-<YY>-<NN>.pdf`, yielding the document with its two-digit year
normalized to `2000 + YY` and its number normalized to `"<year>-<NN>"`
(the tests: `rp-24-40.pdf` → Revenue Procedure `"2024-40"`, year 2024). -/
def parseDropFilename (l : List Char) : Option IRSDropDocument :=
  match guidanceKind l with
  | none => none
  | some (t, rest) =>
    let yy := rest.takeWhile isDigitCh
    match rest.drop yy.length with
    | '-' :: rest3 =>
      let nn := rest3.takeWhile isDigitCh
      if yy ≠ [] && nn ≠ [] && rest3.drop nn.length == ".pdf".data then
        let yr := 2000 + digitsVal yy
        some { doc_type := t, doc_number := String.mk (natStr yr ++ '-' :: nn),
               year := yr, pdf_filename := String.mk l }
      else none
    | _ => none

/-- Modelled from the spec: `parse_irs_drop_listing` of
`atlas.fetchers.irs_bulk`, which is not under the given sources.  Per the
spec's scenario and the tests: scan the raw listing fragment for `href`
targets, keep those matching a recognized guidance filename pattern, and
apply the optional year and document-type filters. -/
def parse_irs_drop_listing (html : String) (year : Option Nat := none)
    (doc_types : Option (List GuidanceType) := none) : List IRSDropDocument :=
  let docs := (extractHrefs html.data).filterMap parseDropFilename
  let docs := match year with
    | none => docs
    | some y => docs.filter (fun d => d.year == y)
  match doc_types with
  | none => docs
  | some ts => docs.filter (fun d => ts.contains d.doc_type)

/-- Well-formedness of the optional section segment (see
`wellFormedCitation`). -/
def secSeg : Option String → Prop
  | none => True
  | some s => goodSeg s.data

instance : (o : Option String) → Decidable (secSeg o)
  | none => .isTrue trivial
  | some s => inferInstanceAs (Decidable (goodSeg s.data))

/-- A citation whose string fields are individual path segments: no `'/'`,
nonempty, and not `"."`.  Every citation the repository itself builds
(types like `"ukpga"`, numeric act numbers, `section=str(i)`) satisfies
this. -/
def wellFormedCitation (c : UKCitation) : Prop :=
  goodSeg c.type.data ∧ goodSeg c.number.data ∧ secSeg c.«section»

instance (c : UKCitation) : Decidable (wellFormedCitation c) :=
  inferInstanceAs (Decidable (_ ∧ _ ∧ _))

/-- The fetcher's default `base_url` (legislation_uk.py line 43). -/
def uk_base : String := "https://www.legislation.gov.uk"

/-- A concrete act citation: the Income Tax (Earnings and Pensions) Act
2003, `"ukpga/2003/1"` from `UK_PRIORITY_ACTS`. -/
def act2003 : UKCitation := { type := "ukpga", year := 2003, number := "1", «section» := none }

/-- Fresh fetcher state: empty cache, no requests issued. -/
def st0 : FetchState := { cache := [], log := [] }

/-- URL of section `i` of `act2003`. -/
def sec_url (i : Nat) : String := build_url uk_base (section_citation act2003 i)

/-- Scripted metadata parser: the act reports 2 sections. -/
def meta_two : String → UKAct := fun _ => ⟨"ITEPA 2003", some 2⟩

/-- Scripted metadata parser: the act reports 5 sections. -/
def meta_five : String → UKAct := fun _ => ⟨"ITEPA 2003", some 5⟩

/-- Scripted network: section 1 of `act2003` always answers HTTP 503, every
other URL succeeds — the spec's transient-failure scenario. -/
def net_503 : NetOracle := fun _ url => if url = sec_url 1 then .status 503 else .ok "<xml/>"

/-- Scripted network: every request succeeds. -/
def net_all_ok : NetOracle := fun _ _ => .ok "<xml/>"

/-- Scripted per-URL responses: section 1 of `act2003` does not exist (404),
everything else succeeds. -/
def resp_404_first : String → FetchOutcome := fun url =>
  if url = sec_url 1 then .status 404 else .ok "<xml/>"

/-- First citation of the cache-path collision: act number `"1"`, section
`"2/act"`. -/
def collide_left : UKCitation :=
  { type := "ukpga", year := 2003, number := "1", «section» := some "2/act" }

/-- Second citation of the cache-path collision: act number
`"1/section-2"`, no section. -/
def collide_right : UKCitation :=
  { type := "ukpga", year := 2003, number := "1/section-2", «section» := none }

/-- A concrete REST-API source configuration shared verbatim by two
registered jurisdictions in the adapter-selection counterexample. -/
def cfg_api : SourceConfig :=
  { jurisdiction := "us-zz", name := "Example", source_type := "api",
    base_url := "https://api.example.org", api_key := some "key-123",
    section_url_pattern := none, toc_url_pattern := none,
    content_selector := none, title_selector := none, history_selector := none,
    codes := [], priority_codes := [], rate_limit := 1,
    max_retries := yaml_default_max_retries, custom_parser_ref := none }

/-- A registry in which `"us-ny"` and `"us-zz"` carry the identical
configuration `cfg_api`. -/
def reg_pair : Registry := [("us-ny", cfg_api), ("us-zz", cfg_api)]

/-- A fetcher state whose cache already holds a payload for `act2003`. -/
def st_cached : FetchState :=
  { cache := [(cache_path_parts act2003, "<cached-act/>")], log := [] }

instance {ε α : Type} [DecidableEq ε] [DecidableEq α] : DecidableEq (Except ε α) :=
  fun x y =>
    match x, y with
    | .ok a, .ok b =>
      if h : a = b then .isTrue (by rw [h])
      else .isFalse (by intro e; injection e; contradiction)
    | .error a, .error b =>
      if h : a = b then .isTrue (by rw [h])
      else .isFalse (by intro e; injection e; contradiction)
    | .ok _, .error _ => .isFalse (by intro e; injection e)
    | .error _, .ok _ => .isFalse (by intro e; injection e)

theorem natStrAux_eq_digits :
    ∀ (fuel n : Nat), n ≤ fuel →
      natStrAux fuel n = ((Nat.digits 10 n).map Nat.digitChar).reverse := by
  intro fuel
  induction fuel with
  | zero =>
    intro n hn
    interval_cases n
    simp [natStrAux]
  | succ f ih =>
    intro n hn
    by_cases h0 : n = 0
    · subst h0; simp [natStrAux]
    · have hlt : n / 10 < n := Nat.div_lt_self (Nat.pos_of_ne_zero h0) (by norm_num)
      have hle : n / 10 ≤ f := by omega
      rw [natStrAux, if_neg h0, ih _ hle,
        Nat.digits_def' (by norm_num : (1 : Nat) < 10) (Nat.pos_of_ne_zero h0)]
      simp

theorem natStr_eq_digits {n : Nat} (h0 : n ≠ 0) :
    natStr n = ((Nat.digits 10 n).map Nat.digitChar).reverse := by
  rw [natStr, if_neg h0]
  exact natStrAux_eq_digits (n + 1) n (Nat.le_succ n)

theorem digitChar_inj10 {d1 d2 : Nat} (h1 : d1 < 10) (h2 : d2 < 10)
    (h : Nat.digitChar d1 = Nat.digitChar d2) : d1 = d2 := by
  interval_cases d1 <;> interval_cases d2 <;> revert h <;> decide

theorem mem_natStr {ch : Char} {n : Nat} (h : ch ∈ natStr n) :
    ∃ d, d < 10 ∧ ch = Nat.digitChar d := by
  by_cases h0 : n = 0
  · subst h0
    simp [natStr] at h
    exact ⟨0, by norm_num, by simp [h]; rfl⟩
  · rw [natStr_eq_digits h0] at h
    rw [List.mem_reverse, List.mem_map] at h
    obtain ⟨d, hd, rfl⟩ := h
    exact ⟨d, Nat.digits_lt_base (by norm_num) hd, rfl⟩

theorem natStr_goodSeg (n : Nat) : goodSeg (natStr n) := by
  refine ⟨?_, ?_, ?_⟩
  · intro hmem
    obtain ⟨d, hd, hch⟩ := mem_natStr hmem
    revert hch
    interval_cases d <;> decide
  · by_cases h0 : n = 0
    · subst h0; simp [natStr]
    · rw [natStr_eq_digits h0]
      simp [Nat.digits_ne_nil_iff_ne_zero.mpr h0]
  · intro hdot
    have : '.' ∈ natStr n := by rw [hdot]; simp
    obtain ⟨d, hd, hch⟩ := mem_natStr this
    revert hch
    interval_cases d <;> decide

theorem map_digitChar_inj :
    ∀ (l1 l2 : List Nat), (∀ d ∈ l1, d < 10) → (∀ d ∈ l2, d < 10) →
      l1.map Nat.digitChar = l2.map Nat.digitChar → l1 = l2 := by
  intro l1
  induction l1 with
  | nil =>
    intro l2 _ _ h
    cases l2 with
    | nil => rfl
    | cons b u => simp at h
  | cons a t ih =>
    intro l2 h1 h2 h
    cases l2 with
    | nil => simp at h
    | cons b u =>
      simp only [List.map_cons, List.cons.injEq] at h
      obtain ⟨hab, htu⟩ := h
      have hab' := digitChar_inj10 (h1 a (by simp)) (h2 b (by simp)) hab
      subst hab'
      rw [ih u (fun d hd => h1 d (by simp [hd])) (fun d hd => h2 d (by simp [hd])) htu]

theorem natStr_injective {m n : Nat} (h : natStr m = natStr n) : m = n := by
  by_cases hm : m = 0 <;> by_cases hn : n = 0
  · omega
  · exfalso
    subst hm
    rw [natStr_eq_digits hn] at h
    have h' : (Nat.digits 10 n).map Nat.digitChar = ['0'] := by
      have := congrArg List.reverse h
      simpa [natStr] using this.symm
    rcases hd : Nat.digits 10 n with _ | ⟨d, t⟩
    · rw [hd] at h'; simp at h'
    · rw [hd] at h'
      simp only [List.map_cons, List.cons.injEq, List.map_eq_nil_iff] at h'
      obtain ⟨hdc, ht⟩ := h'
      have hd10 : d < 10 := Nat.digits_lt_base (by norm_num) (by rw [hd]; simp)
      have : d = 0 := digitChar_inj10 hd10 (by norm_num) (by simpa using hdc)
      subst this; subst ht
      have := Nat.ofDigits_digits 10 n
      rw [hd] at this
      simp [Nat.ofDigits] at this
      exact hn this.symm
  · exfalso
    subst hn
    rw [natStr_eq_digits hm] at h
    have h' : (Nat.digits 10 m).map Nat.digitChar = ['0'] := by
      have := congrArg List.reverse h
      simpa [natStr] using this
    rcases hd : Nat.digits 10 m with _ | ⟨d, t⟩
    · rw [hd] at h'; simp at h'
    · rw [hd] at h'
      simp only [List.map_cons, List.cons.injEq, List.map_eq_nil_iff] at h'
      obtain ⟨hdc, ht⟩ := h'
      have hd10 : d < 10 := Nat.digits_lt_base (by norm_num) (by rw [hd]; simp)
      have : d = 0 := digitChar_inj10 hd10 (by norm_num) (by simpa using hdc)
      subst this; subst ht
      have := Nat.ofDigits_digits 10 m
      rw [hd] at this
      simp [Nat.ofDigits] at this
      exact hm this.symm
  · rw [natStr_eq_digits hm, natStr_eq_digits hn] at h
    have h' := List.reverse_injective h
    have hdig := map_digitChar_inj _ _
      (fun d hd => Nat.digits_lt_base (by norm_num) hd)
      (fun d hd => Nat.digits_lt_base (by norm_num) hd) h'
    calc m = Nat.ofDigits 10 (Nat.digits 10 m) := (Nat.ofDigits_digits 10 m).symm
    _ = Nat.ofDigits 10 (Nat.digits 10 n) := by rw [hdig]
    _ = n := Nat.ofDigits_digits 10 n

theorem splitSlash_no_slash : ∀ {l : List Char}, '/' ∉ l → splitSlash l = [l] := by
  intro l
  induction l with
  | nil => intro _; rfl
  | cons c t ih =>
    intro h
    have hc : ¬(c = '/') := fun e => h (by simp [e])
    have ht : '/' ∉ t := fun m => h (List.mem_cons_of_mem _ m)
    simp [splitSlash, ih ht, hc]

theorem pathSegs_goodSeg {l : List Char} (h : goodSeg l) : pathSegs l = [l] := by
  obtain ⟨h1, h2, h3⟩ := h
  rw [pathSegs, splitSlash_no_slash h1]
  rcases l with _ | ⟨a, t⟩
  · exact absurd rfl h2
  · have h3' : ((a :: t : List Char) == ['.']) = false := by
      rw [beq_eq_false_iff_ne]; exact h3
    simp [List.filter, List.isEmpty, h3']

theorem lastSeg_goodSeg (o : Option String) (h : secSeg o) : goodSeg (lastSeg o) := by
  cases o with
  | none => decide
  | some s =>
    obtain ⟨hs1, _, _⟩ := h
    refine ⟨?_, ?_, ?_⟩
    · intro hmem
      simp only [lastSeg, List.mem_append] at hmem
      rcases hmem with (hmem | hmem) | hmem
      · revert hmem; decide
      · exact hs1 hmem
      · revert hmem; decide
    · simp [lastSeg]
    · intro he
      have := congrArg List.length he
      simp [lastSeg, List.length_append] at this

theorem cache_path_parts_wf {c : UKCitation} (h : wellFormedCitation c) :
    cache_path_parts c = [c.type.data, natStr c.year, c.number.data, lastSeg c.«section»] := by
  obtain ⟨h1, h2, h3⟩ := h
  rw [cache_path_parts, pathSegs_goodSeg h1, pathSegs_goodSeg (natStr_goodSeg _),
    pathSegs_goodSeg h2, pathSegs_goodSeg (lastSeg_goodSeg _ h3)]
  rfl

theorem section_path_inj {c : UKCitation} {i j : Nat}
    (h : cache_path_parts (section_citation c i) = cache_path_parts (section_citation c j)) :
    i = j := by
  unfold cache_path_parts section_citation at h
  simp only at h
  rw [pathSegs_goodSeg (lastSeg_goodSeg (some (String.mk (natStr i)))
        (by simpa [secSeg] using natStr_goodSeg i)),
    pathSegs_goodSeg (lastSeg_goodSeg (some (String.mk (natStr j)))
        (by simpa [secSeg] using natStr_goodSeg j))] at h
  have h' := List.append_cancel_left h
  simp only [List.cons.injEq, and_true] at h'
  simp only [lastSeg] at h'
  have h'' := List.append_cancel_left (List.append_cancel_right h')
  exact natStr_injective h''

theorem fetch_section_cache_hit (net : NetOracle) (base_url : String) (st : FetchState)
    (c : UKCitation) (cch : Bool) {xml : String}
    (h : cacheLookup st.cache (cache_path_parts c) = some xml) :
    fetch_section net base_url st c cch false = (st, .ok (parse_section xml)) := by
  unfold fetch_section
  simp [h]

theorem fetch_section_miss_ok (net : NetOracle) (base_url : String) (st : FetchState)
    (c : UKCitation) {body : String}
    (h : cacheLookup st.cache (cache_path_parts c) = none)
    (hnet : net st.log.length (build_url base_url c) = .ok body) :
    fetch_section net base_url st c true false =
      ({ cache := cacheInsert st.cache (cache_path_parts c) body,
         log := st.log ++ [build_url base_url c] }, .ok (parse_section body)) := by
  unfold fetch_section fetch_xml
  simp [h, hnet]

theorem fetch_section_miss_status (net : NetOracle) (base_url : String) (st : FetchState)
    (c : UKCitation) {code : Nat}
    (h : cacheLookup st.cache (cache_path_parts c) = none)
    (hnet : net st.log.length (build_url base_url c) = .status code) :
    fetch_section net base_url st c true false =
      ({ st with log := st.log ++ [build_url base_url c] }, .error (.statusErr code)) := by
  unfold fetch_section fetch_xml
  simp [h, hnet]

theorem fetch_section_miss_transport (net : NetOracle) (base_url : String) (st : FetchState)
    (c : UKCitation)
    (h : cacheLookup st.cache (cache_path_parts c) = none)
    (hnet : net st.log.length (build_url base_url c) = .transport) :
    fetch_section net base_url st c true false =
      ({ st with log := st.log ++ [build_url base_url c] }, .error .transportErr) := by
  unfold fetch_section fetch_xml
  simp [h, hnet]

theorem fetch_act_metadata_cache_hit (net : NetOracle) (meta : String → UKAct)
    (base_url : String) (st : FetchState) (c : UKCitation) (cch : Bool) {xml : String}
    (h : cacheLookup st.cache (cache_path_parts c) = some xml) :
    fetch_act_metadata net meta base_url st c cch false = (st, .ok (meta xml)) := by
  unfold fetch_act_metadata
  simp [h]

theorem cacheLookup_insert (cch : List (List (List Char) × String))
    (k k' : List (List Char)) (v : String) :
    cacheLookup (cacheInsert cch k v) k' = if k' = k then some v else cacheLookup cch k' :=
  rfl

theorem fetch_loop_spec (f : String → FetchOutcome) (base_url : String) (c : UKCitation) :
    ∀ (l : List Nat) (st : FetchState),
      (∀ i ∈ l, cacheLookup st.cache (cache_path_parts (section_citation c i)) = none) →
      (∀ i ∈ l, isOkOr404 (f (build_url base_url (section_citation c i))) = true) →
      l.Pairwise (fun i j =>
        cache_path_parts (section_citation c i) ≠ cache_path_parts (section_citation c j)) →
      (fetch_sections_loop (fun _ url => f url) base_url st c l).2 =
        .ok (spec_enumerated_sections f base_url c l) := by
  intro l
  induction l with
  | nil => intro st _ _ _; rfl
  | cons i rest ih =>
    intro st hmiss hok hpw
    have hm := hmiss i (by simp)
    have hoki := hok i (by simp)
    rw [List.pairwise_cons] at hpw
    obtain ⟨hhead, htail⟩ := hpw
    cases hout : f (build_url base_url (section_citation c i)) with
    | ok body =>
      have hstep := fetch_section_miss_ok (fun _ url => f url) base_url st
        (section_citation c i) hm hout
      rw [fetch_sections_loop]
      simp only [hstep]
      have hmiss' : ∀ j ∈ rest,
          cacheLookup (cacheInsert st.cache (cache_path_parts (section_citation c i)) body)
            (cache_path_parts (section_citation c j)) = none := by
        intro j hj
        rw [cacheLookup_insert,
          if_neg (fun e => hhead j hj (by rw [e])), hmiss j (by simp [hj])]
      have hrec := ih ⟨cacheInsert st.cache (cache_path_parts (section_citation c i)) body,
          st.log ++ [build_url base_url (section_citation c i)]⟩
        hmiss' (fun j hj => hok j (by simp [hj])) htail
      rcases hL : fetch_sections_loop (fun _ url => f url) base_url
          ⟨cacheInsert st.cache (cache_path_parts (section_citation c i)) body,
            st.log ++ [build_url base_url (section_citation c i)]⟩ c rest
        with ⟨st2, r2⟩
      rw [hL] at hrec
      simp only at hrec
      subst hrec
      simp only [hL]
      simp [spec_enumerated_sections, hout]
    | status code =>
      rw [hout] at hoki
      have hcode : code = 404 := by simpa [isOkOr404] using hoki
      subst hcode
      have hstep := fetch_section_miss_status (fun _ url => f url) base_url st
        (section_citation c i) hm hout
      rw [fetch_sections_loop]
      simp only [hstep]
      have hrec := ih ⟨st.cache, st.log ++ [build_url base_url (section_citation c i)]⟩
        (fun j hj => hmiss j (by simp [hj])) (fun j hj => hok j (by simp [hj])) htail
      rw [show spec_enumerated_sections f base_url c (i :: rest) =
        spec_enumerated_sections f base_url c rest by simp [spec_enumerated_sections, hout]]
      exact hrec
    | transport =>
      rw [hout] at hoki
      simp [isOkOr404] at hoki

/-- C2.  In the enumeration loop of `fetch_act_sections`, a citation whose
(uncached) fetch answers HTTP 404 is skipped, not failed: exactly one
request is issued for it (never retried), nothing is added to the result or
the cache, and the loop continues with the remaining citations — the run's
outcome is that of the rest of the enumeration. -/
theorem claim_c2 (net : NetOracle) (base_url : String) (st : FetchState)
    (c : UKCitation) (i : Nat) (rest : List Nat)
    (hmiss : cacheLookup st.cache (cache_path_parts (section_citation c i)) = none)
    (h404 : net st.log.length (build_url base_url (section_citation c i)) = .status 404) :
    fetch_sections_loop net base_url st c (i :: rest) =
      fetch_sections_loop net base_url
        ⟨st.cache, st.log ++ [build_url base_url (section_citation c i)]⟩ c rest := by
  rw [fetch_sections_loop,
    fetch_section_miss_status net base_url st (section_citation c i) hmiss h404]
  simp

/-- Witness for C2: with a fresh state and a scripted network on which
section 1 of `act2003` is a 404, processing `[1, 2]` skips section 1 with a
single logged request and continues with `[2]`. -/
theorem claim_c2_witness :
    fetch_sections_loop (fun _ url => resp_404_first url) uk_base st0 act2003 [1, 2] =
      fetch_sections_loop (fun _ url => resp_404_first url) uk_base
        ⟨st0.cache, st0.log ++ [build_url uk_base (section_citation act2003 1)]⟩
        act2003 [2] :=
  claim_c2 (fun _ url => resp_404_first url) uk_base st0 act2003 1 [2]
    (by decide) (by decide)

/-- C3.  A cache entry suffices to avoid the network: with `force=False`,
`fetch_section` and `fetch_act_metadata` answer a cached citation by
parsing the cached payload, leaving the state — in particular the request
log — untouched; and conversely either function touches the network only
when the cache misses or `force=True`. -/
theorem claim_c3 :
    (∀ (net : NetOracle) (base_url : String) (st : FetchState) (c : UKCitation)
      (cch : Bool) (xml : String),
      cacheLookup st.cache (cache_path_parts c) = some xml →
      fetch_section net base_url st c cch false = (st, .ok (parse_section xml))) ∧
    (∀ (net : NetOracle) (meta : String → UKAct) (base_url : String) (st : FetchState)
      (c : UKCitation) (cch : Bool) (xml : String),
      cacheLookup st.cache (cache_path_parts c) = some xml →
      fetch_act_metadata net meta base_url st c cch false = (st, .ok (meta xml))) ∧
    (∀ (net : NetOracle) (base_url : String) (st : FetchState) (c : UKCitation)
      (cch force : Bool),
      (fetch_section net base_url st c cch force).1.log ≠ st.log →
      force = true ∨ cacheLookup st.cache (cache_path_parts c) = none) ∧
    (∀ (net : NetOracle) (meta : String → UKAct) (base_url : String) (st : FetchState)
      (c : UKCitation) (cch force : Bool),
      (fetch_act_metadata net meta base_url st c cch force).1.log ≠ st.log →
      force = true ∨ cacheLookup st.cache (cache_path_parts c) = none) := by
  refine ⟨?_, ?_, ?_, ?_⟩
  · intro net base_url st c cch xml h
    exact fetch_section_cache_hit net base_url st c cch h
  · intro net meta base_url st c cch xml h
    exact fetch_act_metadata_cache_hit net meta base_url st c cch h
  · intro net base_url st c cch force hne
    cases force with
    | true => exact Or.inl rfl
    | false =>
      cases hl : cacheLookup st.cache (cache_path_parts c) with
      | none => exact Or.inr rfl
      | some xml =>
        exact absurd (by rw [fetch_section_cache_hit net base_url st c cch hl]) hne
  · intro net meta base_url st c cch force hne
    cases force with
    | true => exact Or.inl rfl
    | false =>
      cases hl : cacheLookup st.cache (cache_path_parts c) with
      | none => exact Or.inr rfl
      | some xml =>
        exact absurd (by rw [fetch_act_metadata_cache_hit net meta base_url st c cch hl]) hne

/-- Witness for C3: on a state whose cache holds a payload for `act2003`,
`fetch_section` returns the parse of that payload and issues no request,
for an arbitrary concrete network. -/
theorem claim_c3_witness :
    fetch_section (fun _ _ => .transport) uk_base st_cached act2003 true false =
      (st_cached, .ok (parse_section "<cached-act/>")) :=
  claim_c3.1 (fun _ _ => .transport) uk_base st_cached act2003 true "<cached-act/>"
    (by decide)

/-- C1 (amended).  A transient HTTP failure on a section fetch is never
retried and is not recorded as a per-citation failure: whether the response
is a non-404 status (e.g. 503) or a transport error (timeout, connection
error), the enumeration loop issues exactly one request for the citation
and immediately re-raises, aborting the remaining citations of the act. -/
theorem claim_c1_amended :
    (∀ (net : NetOracle) (base_url : String) (st : FetchState) (c : UKCitation)
      (i : Nat) (rest : List Nat) (code : Nat), code ≠ 404 →
      cacheLookup st.cache (cache_path_parts (section_citation c i)) = none →
      net st.log.length (build_url base_url (section_citation c i)) = .status code →
      fetch_sections_loop net base_url st c (i :: rest) =
        (⟨st.cache, st.log ++ [build_url base_url (section_citation c i)]⟩,
          .error (.statusErr code))) ∧
    (∀ (net : NetOracle) (base_url : String) (st : FetchState) (c : UKCitation)
      (i : Nat) (rest : List Nat),
      cacheLookup st.cache (cache_path_parts (section_citation c i)) = none →
      net st.log.length (build_url base_url (section_citation c i)) = .transport →
      fetch_sections_loop net base_url st c (i :: rest) =
        (⟨st.cache, st.log ++ [build_url base_url (section_citation c i)]⟩,
          .error .transportErr)) := by
  constructor
  · intro net base_url st c i rest code hne hmiss hnet
    rw [fetch_sections_loop,
      fetch_section_miss_status net base_url st (section_citation c i) hmiss hnet]
    simp only
    rw [if_neg (fun e => hne (by injection e))]
  · intro net base_url st c i rest hmiss hnet
    rw [fetch_sections_loop,
      fetch_section_miss_transport net base_url st (section_citation c i) hmiss hnet]
    simp only
    rw [if_neg (by intro e; injection e)]

/-- Witness for the amended C1: on a fresh state with `net_503` (section 1
of `act2003` answers 503), processing `[1, 2]` makes one request, raises
the 503, and never reaches section 2. -/
theorem claim_c1_amended_witness :
    fetch_sections_loop net_503 uk_base st0 act2003 [1, 2] =
      (⟨st0.cache, st0.log ++ [build_url uk_base (section_citation act2003 1)]⟩,
        .error (.statusErr 503)) :=
  claim_c1_amended.1 net_503 uk_base st0 act2003 1 [2] 503
    (by decide) (by decide) (by decide)

/-- Counterexample to C1 as stated.  Running `fetch_act_sections` on
`act2003` (metadata reports 2 sections) against a network on which section
1 persistently answers HTTP 503: the run errors out with the 503 instead of
recording a per-citation failure and proceeding; section 1 is requested
exactly once — it is not retried up to the configured maximum
(`max_retries` defaults to 3) — and section 2 is never requested, so the
failure aborts the remaining citations of the act. -/
theorem claim_c1_counterexample :
    (fetch_act_sections net_503 meta_two uk_base st0 act2003 none).2 =
        .error (.statusErr 503) ∧
      (fetch_act_sections net_503 meta_two uk_base st0 act2003 none).1.log =
        [build_url uk_base act2003, sec_url 1] ∧
      ((fetch_act_sections net_503 meta_two uk_base st0 act2003 none).1.log.count
        (sec_url 1) = 1) ∧
      sec_url 2 ∉ (fetch_act_sections net_503 meta_two uk_base st0 act2003 none).1.log ∧
      1 < yaml_default_max_retries := by
  refine ⟨by decide, by decide, by decide, by decide, by decide⟩

/-- C4 (amended).  For an act whose metadata reports a nonzero
`section_count`, `fetch_act_sections` enumerates candidate section numbers
`1..section_count`, capped at `min(section_count, max_sections)` when a
nonzero `max_sections` is given; and whenever the metadata phase succeeds,
no candidate section is already cached, and every candidate's response is a
success or a 404, the run returns exactly the spec's enumeration: the
successfully fetched sections in ascending section-number order, 404s
skipped. -/
theorem claim_c4_amended :
    (∀ k m : Nat, effective_count (some (k + 1)) (some (m + 1)) = min (k + 1) (m + 1)) ∧
    (∀ k : Nat, effective_count (some (k + 1)) none = k + 1) ∧
    (∀ (f : String → FetchOutcome) (meta : String → UKAct) (base_url : String)
      (st st₁ : FetchState) (c : UKCitation) (ms : Option Nat) (act : UKAct),
      fetch_act_metadata (fun _ url => f url) meta base_url st c true false = (st₁, .ok act) →
      (∀ i ∈ candidate_sections act.section_count ms,
        cacheLookup st₁.cache (cache_path_parts (section_citation c i)) = none) →
      (∀ i ∈ candidate_sections act.section_count ms,
        isOkOr404 (f (build_url base_url (section_citation c i))) = true) →
      (fetch_act_sections (fun _ url => f url) meta base_url st c ms).2 =
        .ok (spec_enumerated_sections f base_url c
          (candidate_sections act.section_count ms))) := by
  refine ⟨?_, ?_, ?_⟩
  · intro k m
    simp [effective_count]
  · intro k
    simp [effective_count]
  · intro f meta base_url st st₁ c ms act hmeta hmiss hok
    rw [fetch_act_sections, hmeta]
    exact fetch_loop_spec f base_url c (candidate_sections act.section_count ms) st₁
      hmiss hok
      ((List.nodup_range' ..).imp
        (fun hne he => hne (section_path_inj he)))

/-- Witness for the amended C4: metadata reports 2 sections, section 1 is a
404 and section 2 succeeds; the run returns exactly the spec enumeration
(here: the single section 2). -/
theorem claim_c4_amended_witness :
    (fetch_act_sections (fun _ url => resp_404_first url) meta_two uk_base st0 act2003
        none).2 =
      .ok (spec_enumerated_sections resp_404_first uk_base act2003
        (candidate_sections (some 2) none)) :=
  claim_c4_amended.2.2 resp_404_first meta_two uk_base st0
    ⟨cacheInsert st0.cache (cache_path_parts act2003) "<xml/>",
      st0.log ++ [build_url uk_base act2003]⟩
    act2003 none ⟨"ITEPA 2003", some 2⟩ (by decide) (by decide) (by decide)

/-- Counterexample to C4 as stated.  With metadata reporting 5 sections and
`max_sections = 0` (a given bound), the claim predicts enumeration up to
`min(5, 0) = 0`, i.e. no sections; the code's `if max_sections:` treats `0`
as "no bound" (Python truthiness), enumerates all 5 candidates, and — on an
all-success network — returns 5 sections. -/
theorem claim_c4_counterexample :
    candidate_sections (some 5) (some 0) = [1, 2, 3, 4, 5] ∧
      List.range' 1 (min 5 0) = [] ∧
      (fetch_act_sections net_all_ok meta_five uk_base st0 act2003 (some 0)).2 =
        .ok (List.replicate 5 (parse_section "<xml/>")) := by
  refine ⟨by decide, by decide, by decide⟩

/-- C9.  When the fetched metadata carries no `section_count` (None, or an
explicit 0, which Python's `or` also replaces), `fetch_act_sections`
without a `max_sections` argument enumerates candidate section numbers 1
through exactly 1000, the hard-coded default of
`act.section_count or 1000`. -/
theorem claim_c9 :
    candidate_sections none none = List.range' 1 1000 ∧
      candidate_sections (some 0) none = List.range' 1 1000 ∧
      effective_count none none = 1000 ∧
      effective_count (some 0) none = 1000 ∧
      (candidate_sections none none).length = 1000 := by
  refine ⟨?_, ?_, ?_, ?_, ?_⟩
  · rfl
  · rfl
  · rfl
  · rfl
  · simp only [candidate_sections, List.length_range']
    rfl

/-- C6 (amended).  The cache path is a deterministic function of the
citation (trivially, being a pure function), and it is injective on
citations whose `type`, `number` and `section` fields are single path
segments — nonempty, not `"."`, and containing no `'/'`; every citation the
repository itself constructs is of this form.  (Injectivity fails for
arbitrary strings: see the counterexample, where a `'/'` inside `number`
reproduces another citation's path.) -/
theorem claim_c6_amended :
    (∀ c : UKCitation, cache_path_parts c = cache_path_parts c) ∧
    (∀ c₁ c₂ : UKCitation, wellFormedCitation c₁ → wellFormedCitation c₂ →
      cache_path_parts c₁ = cache_path_parts c₂ → c₁ = c₂) := by
  refine ⟨fun _ => rfl, ?_⟩
  intro c₁ c₂ h₁ h₂ h
  rw [cache_path_parts_wf h₁, cache_path_parts_wf h₂] at h
  simp only [List.cons.injEq, and_true] at h
  obtain ⟨ht, hy, hn, hs⟩ := h
  obtain ⟨c₁t, c₁y, c₁n, c₁s⟩ := c₁
  obtain ⟨c₂t, c₂y, c₂n, c₂s⟩ := c₂
  simp only at ht hy hn hs
  simp only [UKCitation.mk.injEq]
  refine ⟨?_, natStr_injective hy, ?_, ?_⟩
  · cases c₁t; cases c₂t
    exact congrArg String.mk (by simpa using ht)
  · cases c₁n; cases c₂n
    exact congrArg String.mk (by simpa using hn)
  · cases c₁s with
    | none =>
      cases c₂s with
      | none => rfl
      | some s₂ =>
        exfalso
        simp only [lastSeg] at hs
        have := congrArg List.length hs
        simp [List.length_append] at this
    | some s₁ =>
      cases c₂s with
      | none =>
        exfalso
        simp only [lastSeg] at hs
        have := congrArg List.length hs
        simp [List.length_append] at this
      | some s₂ =>
        simp only [lastSeg] at hs
        have hs' := List.append_cancel_left (List.append_cancel_right hs)
        cases s₁; cases s₂
        exact congrArg (fun d => some (String.mk d)) (by simpa using hs')

/-- Witness for the amended C6: both hypotheses hold of the (well-formed)
citation of section 2 of `act2003`, and the theorem applies. -/
theorem claim_c6_amended_witness :
    section_citation act2003 2 = section_citation act2003 2 :=
  claim_c6_amended.2 (section_citation act2003 2) (section_citation act2003 2)
    (by decide) (by decide) (by decide)

/-- Counterexample to C6 as stated.  Two distinct citations — act number
`"1"` with section `"2/act"`, versus act number `"1/section-2"` with no
section — derive the same cache path
`ukpga/2003/1/section-2/act.xml`, because `pathlib` splits the embedded
`'/'` of each string into further path components. -/
theorem claim_c6_counterexample :
    collide_left ≠ collide_right ∧
      cache_path_parts collide_left = cache_path_parts collide_right := by
  refine ⟨by decide, by decide⟩

theorem char_toNat_ofNat_valid (n : Nat) (h : n.isValidChar) : (Char.ofNat n).toNat = n := by
  unfold Char.ofNat
  rw [dif_pos h]
  rfl

theorem lowerChar_idem (c : Char) : lowerChar (lowerChar c) = lowerChar c := by
  unfold lowerChar
  by_cases h : 'A' ≤ c ∧ c ≤ 'Z'
  · rw [if_pos h]
    have hv : (c.toNat + 32).isValidChar := by
      obtain ⟨h1, h2⟩ := h
      have : c.toNat ≤ 90 := h2
      left
      omega
    have ht := char_toNat_ofNat_valid _ hv
    rw [if_neg]
    intro ⟨ha, hb⟩
    have h65 : ('A' : Char).toNat ≤ (Char.ofNat (c.toNat + 32)).toNat := ha
    have h90 : (Char.ofNat (c.toNat + 32)).toNat ≤ ('Z' : Char).toNat := hb
    rw [ht] at h65 h90
    have hlow : 65 ≤ c.toNat + 32 := h65
    have hhigh : c.toNat + 32 ≤ 90 := h90
    have hA : 65 ≤ c.toNat := h.1
    omega
  · rw [if_neg h, if_neg h]

theorem map_lowerChar_idem : ∀ l : List Char,
    (l.map lowerChar).map lowerChar = l.map lowerChar := by
  intro l
  induction l with
  | nil => rfl
  | cons a t ih => simp [lowerChar_idem, ih]

theorem lowerStr_idem (s : String) : lowerStr (lowerStr s) = lowerStr s :=
  congrArg String.mk (map_lowerChar_idem s.data)

/-- C10.  Jurisdiction lookup is case-insensitive: looking up `j` is the
same as looking up `j` lower-cased (the lookup lower-cases its key, and
lower-casing is idempotent); and after `register_source(j, c)` a lookup
under any casing of `j` returns `c`, because both store and lookup
lower-case the key. -/
theorem claim_c10 :
    (∀ (st : Registry) (j : String),
      get_config_for_jurisdiction st j = get_config_for_jurisdiction st (lowerStr j)) ∧
    (∀ (st : Registry) (j j' : String) (config : SourceConfig),
      lowerStr j' = lowerStr j →
      get_config_for_jurisdiction (register_source st j config) j' = some config) := by
  constructor
  · intro st j
    unfold get_config_for_jurisdiction
    rw [lowerStr_idem]
  · intro st j j' config h
    unfold get_config_for_jurisdiction register_source
    rw [h, configsLookup, if_pos rfl]

/-- Witness for C10: registering under `"US-Ca"` and looking up the
differently-cased `"us-cA"` returns the registered configuration. -/
theorem claim_c10_witness :
    get_config_for_jurisdiction (register_source [] "US-Ca" cfg_api) "us-cA" =
      some cfg_api :=
  claim_c10.2 [] "US-Ca" "us-cA" cfg_api (by decide)

/-- C5 (amended).  Adapter selection is a function of the configuration
alone — the same `SourceConfig` yields the same adapter variant — except in
the `"api"` branch, where the raw jurisdiction string is compared against
the literal `"us-ny"`: for non-`"api"` source types any two jurisdictions
with the same configuration get the same adapter, and for `"api"` the same
holds provided neither jurisdiction string is exactly `"us-ny"`. -/
theorem claim_c5_amended :
    (∀ (st : Registry) (j₁ j₂ : String) (config : SourceConfig),
      get_config_for_jurisdiction st j₁ = some config →
      get_config_for_jurisdiction st j₂ = some config →
      config.source_type ≠ "api" →
      get_source_for_jurisdiction st j₁ = get_source_for_jurisdiction st j₂) ∧
    (∀ (st : Registry) (j₁ j₂ : String) (config : SourceConfig),
      get_config_for_jurisdiction st j₁ = some config →
      get_config_for_jurisdiction st j₂ = some config →
      config.source_type = "api" → j₁ ≠ "us-ny" → j₂ ≠ "us-ny" →
      get_source_for_jurisdiction st j₁ = get_source_for_jurisdiction st j₂) := by
  constructor
  · intro st j₁ j₂ config h₁ h₂ hne
    unfold get_source_for_jurisdiction
    rw [h₁, h₂]
    by_cases hu : config.source_type = "uslm"
    · simp [hu]
    · simp [hu, hne]
  · intro st j₁ j₂ config h₁ h₂ hapi hj₁ hj₂
    unfold get_source_for_jurisdiction
    rw [h₁, h₂]
    have hu : config.source_type ≠ "uslm" := by rw [hapi]; decide
    simp [hu, hapi, hj₁, hj₂]

/-- Witness for the amended C5: in `reg_pair`, the non-`"us-ny"`
jurisdiction `"us-zz"` (API source type) selects its adapter consistently. -/
theorem claim_c5_amended_witness :
    get_source_for_jurisdiction reg_pair "us-zz" =
      get_source_for_jurisdiction reg_pair "us-zz" :=
  claim_c5_amended.2 reg_pair "us-zz" "us-zz" cfg_api
    rfl rfl rfl (by decide) (by decide)

/-- Counterexample to C5 as stated.  In `reg_pair` the jurisdictions
`"us-ny"` and `"us-zz"` have the identical configuration (same
`source_type = "api"`, same fields), yet they select different adapter
variants (`NYLegislationSource(config.api_key)` versus
`APISource(config)`), because `get_source_for_jurisdiction` branches on the
jurisdiction identity string `"us-ny"` directly. -/
theorem claim_c5_counterexample :
    get_config_for_jurisdiction reg_pair "us-ny" =
        get_config_for_jurisdiction reg_pair "us-zz" ∧
      get_source_for_jurisdiction reg_pair "us-ny" ≠
        get_source_for_jurisdiction reg_pair "us-zz" := by
  refine ⟨rfl, by decide⟩

theorem request_times_chain (delay : ℚ) :
    ∀ (gaps : List ℚ) (s : RateState), s.last = s.now →
      List.Chain' (fun t₁ t₂ => delay ≤ t₂ - t₁) (s.now :: request_times delay s gaps) := by
  intro gaps
  induction gaps with
  | nil => intro s _; simp [request_times]
  | cons g gs ih =>
    intro s hs
    rw [request_times]
    refine List.chain'_cons.mpr ⟨?_, ?_⟩
    · unfold rate_limit rate_limit_sleep
      simp only
      by_cases hlt : s.now + g - s.last < delay
      · rw [if_pos hlt]
        rw [hs]
        linarith
      · rw [if_neg hlt]
        rw [hs] at hlt
        linarith [not_lt.mp hlt]
    · exact ih (rate_limit delay { s with now := s.now + g }) rfl

/-- C7.  In the discrete-event clock model (time advances only inside
`asyncio.sleep`, plus arbitrary caller-side gaps between calls):
`_rate_limit` sleeps for exactly `max(0, rate_limit_delay - elapsed)`
before each request, and consequently any two consecutive request issue
times of one fetcher instance are at least `rate_limit_delay` apart,
whatever gaps the caller inserts and whatever the initial clock state. -/
theorem claim_c7 :
    (∀ (delay : ℚ) (s : RateState),
      rate_limit_sleep delay s = max 0 (delay - (s.now - s.last))) ∧
    (∀ (delay : ℚ) (gaps : List ℚ) (s : RateState),
      List.Chain' (fun t₁ t₂ => delay ≤ t₂ - t₁) (request_times delay s gaps)) := by
  constructor
  · intro delay s
    unfold rate_limit_sleep
    rcases le_or_lt delay (s.now - s.last) with h | h
    · rw [if_neg (not_lt.mpr h), max_eq_left (by linarith)]
    · rw [if_pos h, max_eq_right (by linarith)]
  · intro delay gaps s
    cases gaps with
    | nil => simp [request_times]
    | cons g gs =>
      rw [request_times]
      exact request_times_chain delay gs (rate_limit delay { s with now := s.now + g }) rfl

/-- C8.  Parsing the drop-listing fragment
`<a href="rp-24-40.pdf">rp-24-40.pdf</a>` yields exactly one recognized
guidance document — a Revenue Procedure with normalized number `"2024-40"`
and year 2024 — and parsing `<a href="p1544.pdf">p1544.pdf</a>` (a
non-guidance publication) yields zero documents. -/
theorem claim_c8 :
    parse_irs_drop_listing "<a href=\"rp-24-40.pdf\">rp-24-40.pdf</a>" none none =
      [{ doc_type := .REV_PROC, doc_number := "2024-40", year := 2024,
         pdf_filename := "rp-24-40.pdf" }] ∧
      parse_irs_drop_listing "<a href=\"p1544.pdf\">p1544.pdf</a>" none none = [] := by
  refine ⟨by decide, by decide⟩
